import Mathlib

/-
Verification of the holoagent real-time audio relay pipeline.

The definitions below are a shallow embedding of the core of the repository:

  * the PCM capture conversions of `SimliOpenAI.tsx` (startRecording) and
    `SimliOpenAIPushToTalk.tsx` (startRecording);
  * the resampler/filter engine (`applyLowPassFilter`, `downsampleAudio`);
  * the chunk relay queue (`processNextAudioChunk`, `handleConversationUpdate`,
    `interruptConversation`);
  * the push-to-talk hold handlers of `SimliOpenAIPushToTalk.tsx`;
  * the start gating of the continuous component (`handleStart` plus the
    render-time gating of the start button);
  * the duration ledger of `DynamicInteractionPage.tsx` (`handleStart`,
    `flushDuration`, the quota modal and the widget render condition).

JavaScript numbers are modelled by real numbers (the filter mathematics uses
pi and sine, so the coefficient arithmetic is ideal-real rather than binary
floating point); microphone samples are modelled by rationals; Int16Array
element assignment is modelled by the exact wrap-around `toInt16`; time is in
integer milliseconds as delivered by Date.now().
-/

namespace HoloAgent

/-! PCM capture conversion (SimliOpenAI.tsx lines 392-402 and
SimliOpenAIPushToTalk.tsx lines 401-410). -/

/-- Int16Array element assignment in JavaScript: wrap the integer into
the signed 16-bit range, exactly as ToInt16 does. -/
def toInt16 (n : ℤ) : ℤ := (n + 32768) % 65536 - 32768

/-- The continuous-mode capture conversion, from SimliOpenAI.tsx
startRecording: clamp the float sample to [-1, 1] with Math.max/Math.min,
multiply by 32767, Math.floor, and store into an Int16Array. -/
def pcmConvertContinuous (x : ℚ) : ℤ :=
  toInt16 ⌊(max (-1) (min 1 x)) * 32767⌋

/-- The push-to-talk capture conversion, from SimliOpenAIPushToTalk.tsx
startRecording: multiply the raw sample by 32768, Math.floor, clamp the
integer to [-32768, 32767], and store into an Int16Array. -/
def pcmConvertPushToTalk (x : ℚ) : ℤ :=
  toInt16 (max (-32768) (min 32767 ⌊x * 32768⌋))

/-! Resampler/filter engine (SimliOpenAI.tsx lines 307-374; the
push-to-talk file carries a byte-identical copy). -/

/-- JavaScript Math.round: round half towards positive infinity. -/
noncomputable def jsRound (x : ℝ) : ℤ := ⌊x + 1 / 2⌋

/-- Reading data[idx] under the bounds guard of the convolution loop:
an index outside the input contributes zero (implicit zero padding). -/
def sampleAt (data : List ℤ) (idx : ℤ) : ℝ :=
  if 0 ≤ idx ∧ idx < (data.length : ℤ) then ((data.getD idx.toNat 0 : ℤ) : ℝ) else 0

/-- The raw windowed-sinc tap: 31 taps, middle tap 15, Hamming window
0.54 - 0.46 cos(2 pi i / 30), from applyLowPassFilter. -/
noncomputable def firCoefficients (fc : ℝ) (i : ℕ) : ℝ :=
  (if i = 15 then 2 * Real.pi * fc
   else Real.sin (2 * Real.pi * fc * ((i : ℝ) - 15)) / ((i : ℝ) - 15)) *
  (0.54 - 0.46 * Real.cos (2 * Real.pi * (i : ℝ) / 30))

/-- Sum of the raw taps, used for unity-gain normalization. -/
noncomputable def firCoefficientSum (fc : ℝ) : ℝ :=
  ∑ j ∈ Finset.range 31, firCoefficients fc j

/-- The normalized tap: raw tap divided by the tap sum. -/
noncomputable def firCoefficientsNorm (fc : ℝ) (i : ℕ) : ℝ :=
  firCoefficients fc i / firCoefficientSum fc

/-- The convolution inner loop of applyLowPassFilter at output index i:
sum over j < 31 of coefficients[j] * data[i - j + 15], out-of-range
indices contributing zero. -/
noncomputable def convolveAt (data : List ℤ) (fc : ℝ) (i : ℕ) : ℝ :=
  ∑ j ∈ Finset.range 31, firCoefficientsNorm fc j * sampleAt data ((i : ℤ) - (j : ℤ) + 15)

/-- applyLowPassFilter: FIR-filter every sample, Math.round the sum and
store it into an Int16Array, with fc = cutoffFreq / sampleRate. -/
noncomputable def applyLowPassFilter (data : List ℤ) (cutoffFreq sampleRate : ℝ) : List ℤ :=
  (List.range data.length).map fun i =>
    toInt16 (jsRound (convolveAt data (cutoffFreq / sampleRate) i))

/-- The one failure of the resampler: upsampling requested
(the thrown Error of downsampleAudio). -/
inductive ResampleError where
  | unsupportedDirection
deriving DecidableEq

/-- downsampleAudio: identity at equal rates, failure when upsampling,
otherwise low-pass filter at cutoff 0.45 * outputSampleRate followed by
decimation through linear interpolation at ratio
inputSampleRate / outputSampleRate; output length is
Math.floor(input length / ratio). -/
noncomputable def downsampleAudio (audioData : List ℤ) (inputSampleRate outputSampleRate : ℕ) :
    Except ResampleError (List ℤ) :=
  if inputSampleRate = outputSampleRate then Except.ok audioData
  else if inputSampleRate < outputSampleRate then Except.error ResampleError.unsupportedDirection
  else
    let filteredData := applyLowPassFilter audioData ((outputSampleRate : ℝ) * 0.45) (inputSampleRate : ℝ)
    let ratio : ℝ := (inputSampleRate : ℝ) / (outputSampleRate : ℝ)
    Except.ok <| (List.range ⌊(audioData.length : ℝ) / ratio⌋₊).map fun (i : ℕ) =>
      let position : ℝ := (i : ℝ) * ratio
      let index : ℕ := ⌊position⌋₊
      let fraction : ℝ := position - (index : ℝ)
      if index + 1 < filteredData.length then
        toInt16 (jsRound ((filteredData.getD index 0 : ℝ) +
          fraction * ((filteredData.getD (index + 1) 0 : ℝ) - (filteredData.getD index 0 : ℝ))))
      else filteredData.getD index 0

/-! Chunk relay queue (SimliOpenAI.tsx lines 248-295). The remote-engine
events are serialized by the host, so each handler runs atomically; the
state records the queue, the guard flag, the chunks handed to the
renderer sink in order, and the counts of cancelResponse and ClearBuffer
calls issued to the collaborators. -/

structure RelayState (α : Type) where
  queue : List α
  isProcessingChunk : Bool
  delivered : List α
  cancelCount : ℕ
  clearBufferCalls : ℕ
deriving DecidableEq

/-- processNextAudioChunk: while the guard is down and the queue holds a
chunk, shift the head, hand it to simliClient.sendAudioData, and recurse;
return once the queue is empty; do nothing when the guard is up. -/
def processNextAudioChunk {α : Type} (s : RelayState α) : RelayState α :=
  if s.isProcessingChunk then s
  else
    match h : s.queue with
    | [] => s
    | c :: rest =>
      processNextAudioChunk { s with queue := rest, delivered := s.delivered ++ [c] }
termination_by s.queue.length
decreasing_by simp [h]

/-- handleConversationUpdate on an assistant audio delta: push the
downsampled chunk onto the queue, and start the drain only when the
guard flag is not set. Event shapes without assistant audio leave the
relay state unchanged and are not modelled. -/
def handleConversationUpdate {α : Type} (s : RelayState α) (c : α) : RelayState α :=
  let s1 : RelayState α := { s with queue := s.queue ++ [c] }
  if s1.isProcessingChunk then s1 else processNextAudioChunk s1

/-- interruptConversation: on the remote interrupted signal, call
simliClient.ClearBuffer() and cancelResponse on the in-flight response.
It does not touch the local chunk queue. -/
def interruptConversation {α : Type} (s : RelayState α) : RelayState α :=
  { s with clearBufferCalls := s.clearBufferCalls + 1, cancelCount := s.cancelCount + 1 }

/-- The remote-engine events the relay reacts to, in arrival order. -/
inductive RelayEvent (α : Type) where
  | update (c : α)
  | interrupted
  | drainCall

def relayStep {α : Type} (s : RelayState α) : RelayEvent α → RelayState α
  | RelayEvent.update c => handleConversationUpdate s c
  | RelayEvent.interrupted => interruptConversation s
  | RelayEvent.drainCall => processNextAudioChunk s

def runRelay {α : Type} (s : RelayState α) (evs : List (RelayEvent α)) : RelayState α :=
  evs.foldl relayStep s

/-- The relay state at component mount: empty queue, guard down. -/
def initRelay (α : Type) : RelayState α := ⟨[], false, [], 0, 0⟩

/-- The chunks pushed by an event sequence, in push order. -/
def pushedChunks {α : Type} (evs : List (RelayEvent α)) : List α :=
  evs.filterMap fun e =>
    match e with
    | RelayEvent.update c => some c
    | _ => none

/-! Push-to-talk hold handling (SimliOpenAIPushToTalk.tsx lines 305-311,
425-438 and 485-499). The state tracks the recording flag, the
hold-disabled flag, the number of scheduled 500 ms grace timeouts, and
the counts of createResponse, cancelResponse and ClearBuffer calls. -/

structure PTTState where
  isRecording : Bool
  isButtonDisabled : Bool
  pendingTimers : ℕ
  createResponseCalls : ℕ
  cancelResponseCalls : ℕ
  clearBufferCalls : ℕ
deriving DecidableEq

/-- startRecording of the push-to-talk component: acquire the microphone
and set the recording flag (capture plumbing abstracted). -/
def pttStartRecording (s : PTTState) : PTTState := { s with isRecording := true }

/-- stopRecording of the push-to-talk component: release the capture
resources, clear the recording flag, then always call createResponse. -/
def pttStopRecording (s : PTTState) : PTTState :=
  { s with isRecording := false, createResponseCalls := s.createResponseCalls + 1 }

/-- handlePushToTalkStart: guarded by the re-entrancy check
(!isButtonDisabled && !isRecording); disables the button, starts
recording, clears the renderer buffer and cancels the in-flight
response. -/
def handlePushToTalkStart (s : PTTState) : PTTState :=
  if s.isButtonDisabled = false ∧ s.isRecording = false then
    let s1 := pttStartRecording { s with isButtonDisabled := true }
    { s1 with clearBufferCalls := s1.clearBufferCalls + 1,
              cancelResponseCalls := s1.cancelResponseCalls + 1 }
  else s

/-- handlePushToTalkEnd: unconditionally schedule a 500 ms timeout that
will stop recording and re-enable the button. -/
def handlePushToTalkEnd (s : PTTState) : PTTState :=
  { s with pendingTimers := s.pendingTimers + 1 }

/-- A scheduled grace timeout firing: stopRecording (which issues
createResponse) and re-enable the button. -/
def pttTimerFire (s : PTTState) : PTTState :=
  match s.pendingTimers with
  | 0 => s
  | k + 1 => { pttStopRecording s with pendingTimers := k, isButtonDisabled := false }

/-- handleSpeechStopped: on the remote speech-stopped event, call
createResponse when recording is inactive. -/
def handleSpeechStopped (s : PTTState) : PTTState :=
  if s.isRecording = false then { s with createResponseCalls := s.createResponseCalls + 1 }
  else s

inductive PTTEvent where
  | holdStart
  | holdEnd
  | timerFire
  | speechStopped
deriving DecidableEq

def pttStep (s : PTTState) : PTTEvent → PTTState
  | PTTEvent.holdStart => handlePushToTalkStart s
  | PTTEvent.holdEnd => handlePushToTalkEnd s
  | PTTEvent.timerFire => pttTimerFire s
  | PTTEvent.speechStopped => handleSpeechStopped s

def runPTT (s : PTTState) (evs : List PTTEvent) : PTTState := evs.foldl pttStep s

/-- The push-to-talk state right after the session opens. -/
def initPTT : PTTState := ⟨false, false, 0, 0, 0, 0⟩

/-! Session start gating of the continuous component (SimliOpenAI.tsx
lines 433-449 together with the render logic: the start button is
rendered only while the avatar is not visible and is disabled while
loading). handleStart is asynchronous: its finally block clears the
loading flag as soon as the simliClient.start promise settles, while the
avatar only becomes visible later, in initializeOpenAIClient after the
Simli connected event — in between, the button is rendered and enabled
again although the session is still connecting. connectPending is ghost
state recording a started connection whose connected event has not yet
arrived (in the program it lives in the environment, not in a state
variable). -/

structure SessState where
  isLoading : Bool
  isAvatarVisible : Bool
  connectPending : Bool
  onStartCalls : ℕ
  simliStartCalls : ℕ
deriving DecidableEq

inductive SessPhase where
  | idle
  | connecting
  | active
deriving DecidableEq

/-- The session phase of the spec: Active once the avatar is visible,
Connecting while loading or while a started connection is still awaiting
its connected event, Idle otherwise. -/
def sessionPhase (s : SessState) : SessPhase :=
  if s.isAvatarVisible then SessPhase.active
  else if s.isLoading || s.connectPending then SessPhase.connecting
  else SessPhase.idle

/-- A user click on the start control. The click reaches handleStart
unless the button is disabled (loading) or not rendered (avatar
visible); handleStart then sets the loading flag, fires onStart,
initializes the Simli client and calls simliClient.start. -/
def handleStartClick (s : SessState) : SessState :=
  if s.isLoading = true ∨ s.isAvatarVisible = true then s
  else { s with isLoading := true,
                connectPending := true,
                onStartCalls := s.onStartCalls + 1,
                simliStartCalls := s.simliStartCalls + 1 }

inductive SessEvent where
  | click
  | startResolved
  | simliConnected
deriving DecidableEq

/-- The session transitions: a click on the start control; the
simliClient.start promise settling, whose finally block clears the
loading flag; and the Simli connected event, after which
initializeOpenAIClient makes the avatar visible. -/
def sessStep (s : SessState) : SessEvent → SessState
  | SessEvent.click => handleStartClick s
  | SessEvent.startResolved => { s with isLoading := false }
  | SessEvent.simliConnected =>
      if s.connectPending then { s with isAvatarVisible := true, connectPending := false }
      else s

/-- The component state before any interaction. -/
def sessInit : SessState := ⟨false, false, false, 0, 0⟩

/-! Duration ledger (DynamicInteractionPage.tsx lines 96-119, the modal
state and the widget render condition at lines 182-195). Time is
Date.now() in milliseconds; validity is the is_duration_valid field
(0 or 1) of the quota-service response. -/

structure LedgerState where
  startTime : Option ℕ
  hasConfig : Bool
  hasToken : Bool
  customerValid : Bool
  showLimitModal : Bool
  reports : List ℕ
deriving DecidableEq

/-- handleStart of DynamicInteractionPage: record the start instant. -/
def handleStart (s : LedgerState) (now : ℕ) : LedgerState := { s with startTime := some now }

/-- flushDuration: return early when the start marker is absent (or the
JavaScript-falsy instant 0) or config or token is missing; otherwise
compute floor((now - start)/1000), clear the start marker, emit one
usage report, and raise the limit modal when the response carries
is_duration_valid = 0. The network-failure path (report lost, state
unchanged beyond the cleared marker) is not modelled. -/
def flushDuration (s : LedgerState) (now validity : ℕ) : LedgerState :=
  match s.startTime with
  | none => s
  | some t =>
    if t = 0 ∨ s.hasConfig = false ∨ s.hasToken = false then s
    else
      { s with startTime := none,
               reports := s.reports ++ [(now - t) / 1000],
               showLimitModal := if validity = 0 then true else s.showLimitModal }

/-- The render condition of the interaction widget:
customerValid && !showLimitModal && config. -/
def widgetActive (s : LedgerState) : Bool :=
  s.customerValid && !s.showLimitModal && s.hasConfig

inductive LedgerEvent where
  | start (now : ℕ)
  | flush (now validity : ℕ)
deriving DecidableEq

/-- A start reaches handleStart only while the widget is rendered. -/
def ledgerStep (s : LedgerState) : LedgerEvent → LedgerState
  | LedgerEvent.start now => if widgetActive s then handleStart s now else s
  | LedgerEvent.flush now v => flushDuration s now v

def runLedger (s : LedgerState) (evs : List LedgerEvent) : LedgerState :=
  evs.foldl ledgerStep s

/-- The page state after successful token validation. -/
def initLedger : LedgerState := ⟨none, true, true, true, false, []⟩

/-! Helper lemmas about the chunk relay queue. -/

/-- With the guard down, the drain loop empties the queue and appends it
to the delivered list in order, leaving the guard down. -/
theorem processNext_run {α : Type} (q : List α) (d : List α) (cc cb : ℕ) :
    processNextAudioChunk ⟨q, false, d, cc, cb⟩ = ⟨[], false, d ++ q, cc, cb⟩ := by
  induction q generalizing d with
  | nil =>
    unfold processNextAudioChunk
    simp
  | cons c rest ih =>
    unfold processNextAudioChunk
    simp only [Bool.false_eq_true, if_false]
    rw [ih (d ++ [c])]
    simp

/-- With the guard up, the drain loop does nothing. -/
theorem processNext_stuck {α : Type} (s : RelayState α) (h : s.isProcessingChunk = true) :
    processNextAudioChunk s = s := by
  obtain ⟨q, p, d, cc, cb⟩ := s
  subst h
  unfold processNextAudioChunk
  simp

theorem runRelay_cons {α : Type} (s : RelayState α) (e : RelayEvent α)
    (evs : List (RelayEvent α)) :
    runRelay s (e :: evs) = runRelay (relayStep s e) evs := rfl

/-- Invariant of the relay: starting from an empty queue with the guard
down, every event sequence ends with an empty queue, the guard down, and
the delivered list extended by exactly the pushed chunks in push order. -/
theorem runRelay_inv {α : Type} (evs : List (RelayEvent α)) :
    ∀ s : RelayState α, s.queue = [] → s.isProcessingChunk = false →
      (runRelay s evs).queue = [] ∧ (runRelay s evs).isProcessingChunk = false ∧
      (runRelay s evs).delivered = s.delivered ++ pushedChunks evs := by
  induction evs with
  | nil =>
    intro s h1 h2
    simp [runRelay, pushedChunks, h1, h2]
  | cons e rest ih =>
    intro s h1 h2
    obtain ⟨q, p, d, cc, cb⟩ := s
    simp only at h1 h2
    subst h1; subst h2
    cases e with
    | update c =>
      have hstep : relayStep (⟨[], false, d, cc, cb⟩ : RelayState α) (RelayEvent.update c) =
          ⟨[], false, d ++ [c], cc, cb⟩ := by
        have h0 : relayStep (⟨[], false, d, cc, cb⟩ : RelayState α) (RelayEvent.update c) =
            processNextAudioChunk ⟨[c], false, d, cc, cb⟩ := by
          simp [relayStep, handleConversationUpdate]
        rw [h0, processNext_run]
      rw [runRelay_cons, hstep]
      have h := ih ⟨[], false, d ++ [c], cc, cb⟩ rfl rfl
      simpa [pushedChunks, List.append_assoc] using h
    | interrupted =>
      have hstep : relayStep (⟨[], false, d, cc, cb⟩ : RelayState α) RelayEvent.interrupted =
          ⟨[], false, d, cc + 1, cb + 1⟩ := by
        simp [relayStep, interruptConversation]
      rw [runRelay_cons, hstep]
      have h := ih ⟨[], false, d, cc + 1, cb + 1⟩ rfl rfl
      simpa [pushedChunks] using h
    | drainCall =>
      have hstep : relayStep (⟨[], false, d, cc, cb⟩ : RelayState α) RelayEvent.drainCall =
          ⟨[], false, d, cc, cb⟩ := by
        have h0 := processNext_run ([] : List α) d cc cb
        simp only [List.append_nil] at h0
        simpa [relayStep] using h0
      rw [runRelay_cons, hstep]
      have h := ih ⟨[], false, d, cc, cb⟩ rfl rfl
      simpa [pushedChunks] using h

/-- C1: in every reachable relay state (the drain loop runs to
completion inside each update, so the queue is empty between events), an
interrupted event leaves the chunk queue at length 0, issues exactly one
cancelResponse and one ClearBuffer call to the remote engine and the
renderer, and delivers no further chunk to the renderer sink. -/
theorem interrupted_event_contract (α : Type) (evs : List (RelayEvent α)) :
    (interruptConversation (runRelay (initRelay α) evs)).queue.length = 0 ∧
    (interruptConversation (runRelay (initRelay α) evs)).cancelCount =
      (runRelay (initRelay α) evs).cancelCount + 1 ∧
    (interruptConversation (runRelay (initRelay α) evs)).clearBufferCalls =
      (runRelay (initRelay α) evs).clearBufferCalls + 1 ∧
    (interruptConversation (runRelay (initRelay α) evs)).delivered =
      (runRelay (initRelay α) evs).delivered := by
  have h := runRelay_inv evs (initRelay α) rfl rfl
  refine ⟨?_, rfl, rfl, rfl⟩
  show (runRelay (initRelay α) evs).queue.length = 0
  rw [h.1]
  rfl

/-- C2: a push arriving while the processing guard is set only enqueues
(no drain starts, nothing is delivered); and over every event sequence
from the initial state, the delivered list equals the pushed chunks in
push order with the queue empty, so every pushed chunk is delivered
exactly once, in order. -/
theorem chunk_relay_fifo (α : Type) :
    (∀ (s : RelayState α) (c : α), s.isProcessingChunk = true →
        handleConversationUpdate s c = { s with queue := s.queue ++ [c] }) ∧
    (∀ evs : List (RelayEvent α),
        (runRelay (initRelay α) evs).delivered = pushedChunks evs ∧
        (runRelay (initRelay α) evs).queue = []) := by
  constructor
  · intro s c h
    unfold handleConversationUpdate
    simp [h]
  · intro evs
    have h := runRelay_inv evs (initRelay α) rfl rfl
    refine ⟨?_, h.1⟩
    have h3 := h.2.2
    simpa [initRelay] using h3

/-- Witness for chunk_relay_fifo at concrete inputs: a push under the
guard only enqueues, and a concrete event run delivers in push order. -/
theorem chunk_relay_fifo_w :
    handleConversationUpdate (⟨[], true, [], 0, 0⟩ : RelayState ℕ) 7 = ⟨[7], true, [], 0, 0⟩ ∧
    (runRelay (initRelay ℕ)
      [RelayEvent.update 1, RelayEvent.drainCall, RelayEvent.update 2]).delivered = [1, 2] := by
  constructor
  · have h := (chunk_relay_fifo ℕ).1 ⟨[], true, [], 0, 0⟩ 7 rfl
    simpa using h
  · have h := ((chunk_relay_fifo ℕ).2
      [RelayEvent.update 1, RelayEvent.drainCall, RelayEvent.update 2]).1
    simpa [pushedChunks] using h

/-! Push-to-talk finalize-request counting. -/

/-- C4 counterexample: one complete hold (press, release, grace timer),
followed by the remote speech-stopped event for that utterance arriving
after recording stopped, issues two createResponse finalize requests —
one from stopRecording in the grace timeout, one from
handleSpeechStopped — refuting that exactly one is issued per hold. -/
theorem ptt_two_finalize_requests :
    (runPTT initPTT
      [PTTEvent.holdStart, PTTEvent.holdEnd, PTTEvent.timerFire,
       PTTEvent.speechStopped]).createResponseCalls = 2 ∧
    (runPTT initPTT
      [PTTEvent.holdStart, PTTEvent.holdEnd, PTTEvent.timerFire,
       PTTEvent.speechStopped]).createResponseCalls ≠ 1 := by
  constructor
  · rfl
  · decide

/-- C4 as amended: a hold (press, release, grace-timer firing) starting
from a non-recording, enabled state with no pending grace timer issues
exactly one finalize request via the release path — also when the hold is
shorter than the grace delay, since the timer is scheduled at release —
and, separately, each speech-stopped event arriving while recording is
inactive issues one additional finalize request. -/
theorem ptt_hold_one_finalize_per_release (s : PTTState)
    (h1 : s.isRecording = false) (h2 : s.isButtonDisabled = false)
    (h3 : s.pendingTimers = 0) :
    (runPTT s [PTTEvent.holdStart, PTTEvent.holdEnd, PTTEvent.timerFire]).createResponseCalls
      = s.createResponseCalls + 1 ∧
    ∀ s2 : PTTState, s2.isRecording = false →
      (handleSpeechStopped s2).createResponseCalls = s2.createResponseCalls + 1 := by
  constructor
  · obtain ⟨r, b, p, cr, ca, cl⟩ := s
    simp only at h1 h2 h3
    subst h1; subst h2; subst h3
    simp [runPTT, pttStep, handlePushToTalkStart, handlePushToTalkEnd, pttTimerFire,
      pttStopRecording, pttStartRecording]
  · intro s2 h
    simp [handleSpeechStopped, h]

/-- Witness for ptt_hold_one_finalize_per_release: from the initial
push-to-talk state, one hold issues exactly one finalize request. -/
theorem ptt_hold_one_finalize_w :
    (runPTT initPTT
      [PTTEvent.holdStart, PTTEvent.holdEnd, PTTEvent.timerFire]).createResponseCalls = 1 ∧
    (handleSpeechStopped initPTT).createResponseCalls = 1 := by
  have h := ptt_hold_one_finalize_per_release initPTT rfl rfl rfl
  constructor
  · have h1 := h.1
    simpa [initPTT] using h1
  · have h2 := h.2 initPTT rfl
    simpa [initPTT] using h2

/-! Session start gating of the continuous component. -/

/-- C3 counterexample: after a start click and the settling of the
simliClient.start promise — handleStart's finally block has cleared the
loading flag, the connected event has not yet arrived, the avatar is not
visible — the session phase is still Connecting, yet a second start
click is not rejected: it re-runs handleStart with side effects, firing
onStart a second time and calling simliClient.start a second time. -/
theorem start_not_rejected_mid_connecting :
    sessionPhase (sessStep (sessStep sessInit SessEvent.click) SessEvent.startResolved) =
      SessPhase.connecting ∧
    handleStartClick (sessStep (sessStep sessInit SessEvent.click) SessEvent.startResolved) ≠
      sessStep (sessStep sessInit SessEvent.click) SessEvent.startResolved ∧
    (handleStartClick
      (sessStep (sessStep sessInit SessEvent.click) SessEvent.startResolved)).onStartCalls = 2 ∧
    (handleStartClick
      (sessStep (sessStep sessInit SessEvent.click) SessEvent.startResolved)).simliStartCalls = 2 := by
  refine ⟨rfl, by decide, rfl, rfl⟩

/-- C3 as amended: a start click is rejected without any side effect
exactly when the start control is unavailable — the loading flag set
(button disabled) or the avatar visible (button not rendered). Whenever
both flags are down, the click runs handleStart and its side effects
(another onStart and simliClient.start call) — and that includes the
Connecting window after handleStart's finally clears the loading flag
and before the connected event shows the avatar, so a start is not
rejected from every non-Idle state. -/
theorem start_click_gating (s : SessState) :
    (s.isLoading = true ∨ s.isAvatarVisible = true → handleStartClick s = s) ∧
    (s.isLoading = false → s.isAvatarVisible = false →
      (handleStartClick s).isLoading = true ∧
      (handleStartClick s).onStartCalls = s.onStartCalls + 1 ∧
      (handleStartClick s).simliStartCalls = s.simliStartCalls + 1) := by
  constructor
  · intro h
    unfold handleStartClick
    rw [if_pos h]
  · intro h1 h2
    unfold handleStartClick
    rw [if_neg (by simp [h1, h2])]
    exact ⟨rfl, rfl, rfl⟩

/-- Witness for start_click_gating: a loading state rejects the click
unchanged, and the mid-Connecting flag combination (loading cleared,
avatar not yet visible, connection pending) accepts it, firing onStart
again. -/
theorem start_click_gating_w :
    handleStartClick ⟨true, false, false, 0, 0⟩ = ⟨true, false, false, 0, 0⟩ ∧
    (handleStartClick ⟨false, false, true, 1, 1⟩).onStartCalls = 2 := by
  constructor
  · exact (start_click_gating ⟨true, false, false, 0, 0⟩).1 (Or.inl rfl)
  · exact ((start_click_gating ⟨false, false, true, 1, 1⟩).2 rfl rfl).2.1

/-! Duration ledger. -/

/-- A flush whose guard passes, in closed form. -/
theorem flushDuration_closed (s : LedgerState) (t now validity : ℕ)
    (h : s.startTime = some t) (ht : t ≠ 0)
    (hc : s.hasConfig = true) (hk : s.hasToken = true) :
    flushDuration s now validity =
      { s with startTime := none,
               reports := s.reports ++ [(now - t) / 1000],
               showLimitModal := if validity = 0 then true else s.showLimitModal } := by
  unfold flushDuration
  rw [h]
  simp [ht, hc, hk]

/-- C5 counterexample: start at instant 1000, stop at 6000 (one report
of 5 seconds), stop again at 7000: the second flush leaves the ledger
unchanged and emits no report at all, so the reports are [5] and not the
[5, 0] that a second report of addedSeconds = 0 would produce. -/
theorem repeated_stop_reports_nothing :
    (flushDuration (flushDuration (handleStart initLedger 1000) 6000 1) 7000 1).reports = [5] ∧
    (flushDuration (flushDuration (handleStart initLedger 1000) 6000 1) 7000 1).reports ≠ [5, 0] ∧
    flushDuration (flushDuration (handleStart initLedger 1000) 6000 1) 7000 1 =
      flushDuration (handleStart initLedger 1000) 6000 1 := by
  refine ⟨rfl, by decide, rfl⟩

/-- C5 as amended: the first stop clears the start marker, and a second
consecutive stop with no intervening start is a no-op — it emits no
usage report (rather than reporting addedSeconds = 0). -/
theorem second_flush_noop (s : LedgerState) (t now1 now2 v1 v2 : ℕ)
    (h : s.startTime = some t) (ht : t ≠ 0)
    (hc : s.hasConfig = true) (hk : s.hasToken = true) :
    (flushDuration s now1 v1).startTime = none ∧
    flushDuration (flushDuration s now1 v1) now2 v2 = flushDuration s now1 v1 := by
  rw [flushDuration_closed s t now1 v1 h ht hc hk]
  exact ⟨rfl, rfl⟩

/-- Witness for second_flush_noop at concrete instants. -/
theorem second_flush_noop_w :
    (flushDuration (handleStart initLedger 1000) 6000 1).startTime = none ∧
    flushDuration (flushDuration (handleStart initLedger 1000) 6000 1) 7000 1 =
      flushDuration (handleStart initLedger 1000) 6000 1 :=
  second_flush_noop (handleStart initLedger 1000) 1000 6000 7000 1 1 rfl (by decide) rfl rfl

/-- C6: for a start at any nonzero instant t (Date.now() is positive in
every real execution; the instant 0 is JavaScript-falsy and would skip
the flush guard) and a stop d milliseconds later, the ledger emits
exactly one usage report of floor(d / 1000) seconds; with d = 7500 the
report is 7 (see the witness). -/
theorem duration_report_floor (s : LedgerState) (t d v : ℕ)
    (ht : t ≠ 0) (hc : s.hasConfig = true) (hk : s.hasToken = true) :
    (flushDuration (handleStart s t) (t + d) v).reports = s.reports ++ [d / 1000] := by
  rw [flushDuration_closed (handleStart s t) t (t + d) v rfl ht hc hk]
  simp [handleStart]

/-- Witness for duration_report_floor: the clock advances 7500 ms
between start and stop, and the reported addedSeconds is 7. -/
theorem duration_report_floor_w :
    (flushDuration (handleStart initLedger 1) (1 + 7500) 1).reports = [7] := by
  have h := duration_report_floor initLedger 1 7500 1 (by decide) rfl rfl
  simpa [initLedger] using h

/-- Once the limit modal is up and the start marker is cleared, no
start or flush event changes the ledger state again. -/
theorem runLedger_stuck (s : LedgerState) (hm : s.showLimitModal = true)
    (hs : s.startTime = none) (evs : List LedgerEvent) :
    runLedger s evs = s := by
  induction evs with
  | nil => rfl
  | cons e rest ih =>
    have hstep : ledgerStep s e = s := by
      cases e with
      | start n =>
        have hw : widgetActive s = false := by simp [widgetActive, hm]
        simp [ledgerStep, hw]
      | flush n v =>
        show flushDuration s n v = s
        unfold flushDuration
        rw [hs]
    show runLedger (ledgerStep s e) rest = s
    rw [hstep]
    exact ih

/-- C7: a flush that actually reports (start marker set at a nonzero
instant, config and token present) and receives is_duration_valid = 0
raises the limit modal; the widget render condition then fails, and
every subsequent start or flush event leaves the state unchanged — the
widget is never active again and every start is rejected, until the
caller re-validates externally (a fresh page validation, outside this
event alphabet). -/
theorem quota_exceeded_blocks_start (s : LedgerState) (t now : ℕ)
    (h : s.startTime = some t) (ht : t ≠ 0)
    (hc : s.hasConfig = true) (hk : s.hasToken = true) :
    (flushDuration s now 0).showLimitModal = true ∧
    widgetActive (flushDuration s now 0) = false ∧
    ∀ evs : List LedgerEvent, runLedger (flushDuration s now 0) evs = flushDuration s now 0 := by
  rw [flushDuration_closed s t now 0 h ht hc hk]
  refine ⟨rfl, ?_, ?_⟩
  · simp [widgetActive]
  · intro evs
    exact runLedger_stuck _ rfl rfl evs

/-- Witness for quota_exceeded_blocks_start: after a quota-exceeded
flush, a later start and a later flush both leave the state unchanged. -/
theorem quota_exceeded_blocks_start_w :
    (flushDuration (handleStart initLedger 1000) 3000 0).showLimitModal = true ∧
    widgetActive (flushDuration (handleStart initLedger 1000) 3000 0) = false ∧
    runLedger (flushDuration (handleStart initLedger 1000) 3000 0)
        [LedgerEvent.start 5000, LedgerEvent.flush 6000 1] =
      flushDuration (handleStart initLedger 1000) 3000 0 := by
  have h := quota_exceeded_blocks_start (handleStart initLedger 1000) 1000 3000
    rfl (by decide) rfl rfl
  exact ⟨h.1, h.2.1, h.2.2 _⟩

/-! PCM capture conversion. -/

/-- The Int16 wrap always lands in the signed 16-bit range. -/
theorem toInt16_range (n : ℤ) : -32768 ≤ toInt16 n ∧ toInt16 n ≤ 32767 := by
  unfold toInt16
  have h1 : 0 ≤ (n + 32768) % 65536 := Int.emod_nonneg _ (by norm_num)
  have h2 : (n + 32768) % 65536 < 65536 := Int.emod_lt_of_pos _ (by norm_num)
  omega

/-- C8 counterexample: at the sample -1 the continuous-mode conversion
yields -32767 (clamp to [-1,1], then floor of -1 * 32767) while the
push-to-talk conversion yields -32768 (floor of -1 * 32768, then clamp
to the integer range): the two components do not produce the same
value. -/
theorem pcm_conversions_disagree :
    pcmConvertContinuous (-1) = -32767 ∧
    pcmConvertPushToTalk (-1) = -32768 ∧
    pcmConvertContinuous (-1) ≠ pcmConvertPushToTalk (-1) := by
  have hc : pcmConvertContinuous (-1) = -32767 := by
    unfold pcmConvertContinuous
    have h1 : max (-1) (min 1 (-1 : ℚ)) * 32767 = -32767 := by
      norm_num [min_def, max_def]
    rw [h1]
    have h2 : ⌊(-32767 : ℚ)⌋ = -32767 := by norm_num
    rw [h2]
    decide
  have hp : pcmConvertPushToTalk (-1) = -32768 := by
    unfold pcmConvertPushToTalk
    have h1 : ⌊(-1 : ℚ) * 32768⌋ = -32768 := by norm_num
    rw [h1]
    have h2 : max (-32768 : ℤ) (min 32767 (-32768)) = -32768 := by decide
    rw [h2]
    decide
  refine ⟨hc, hp, ?_⟩
  rw [hc, hp]
  decide

/-- C8 as amended: the two capture conversions are not identical — the
continuous component clamps the sample to [-1,1] and scales by 32767,
the push-to-talk component scales by 32768 and clamps the resulting
integer — but each conversion always produces a value inside the signed
16-bit range [-32768, 32767]. -/
theorem pcm_conversions_in_range (x : ℚ) :
    -32768 ≤ pcmConvertContinuous x ∧ pcmConvertContinuous x ≤ 32767 ∧
    -32768 ≤ pcmConvertPushToTalk x ∧ pcmConvertPushToTalk x ≤ 32767 := by
  have h1 := toInt16_range ⌊(max (-1) (min 1 x)) * 32767⌋
  have h2 := toInt16_range (max (-32768) (min 32767 ⌊x * 32768⌋))
  exact ⟨h1.1, h1.2, h2.1, h2.2⟩

/-! Resampler/filter engine. -/

/-- Reading any index of an all-zero list with default 0 gives 0. -/
theorem getD_replicate_zero (n k : ℕ) : (List.replicate n (0 : ℤ)).getD k 0 = 0 := by
  rw [List.getD_eq_getElem?_getD, List.getElem?_replicate]
  split <;> rfl

theorem sampleAt_replicate_zero (n : ℕ) (idx : ℤ) :
    sampleAt (List.replicate n 0) idx = 0 := by
  unfold sampleAt
  split
  · rw [getD_replicate_zero]
    norm_num
  · rfl

theorem convolveAt_replicate_zero (n : ℕ) (fc : ℝ) (i : ℕ) :
    convolveAt (List.replicate n 0) fc i = 0 := by
  unfold convolveAt
  refine Finset.sum_eq_zero fun j _ => ?_
  rw [sampleAt_replicate_zero, mul_zero]

theorem jsRound_zero : jsRound 0 = 0 := by
  unfold jsRound
  norm_num

theorem toInt16_zero : toInt16 0 = 0 := by decide

/-- Filtering silence yields silence of the same length. -/
theorem applyLowPassFilter_replicate_zero (n : ℕ) (c r : ℝ) :
    applyLowPassFilter (List.replicate n 0) c r = List.replicate n 0 := by
  unfold applyLowPassFilter
  rw [List.length_replicate]
  have hbody : ∀ i : ℕ,
      toInt16 (jsRound (convolveAt (List.replicate n 0) (c / r) i)) = 0 := by
    intro i
    rw [convolveAt_replicate_zero, jsRound_zero, toInt16_zero]
  calc (List.range n).map (fun i => toInt16 (jsRound (convolveAt (List.replicate n 0) (c / r) i)))
      = (List.range n).map (fun _ => (0 : ℤ)) := List.map_congr_left fun i _ => hbody i
    _ = List.replicate n 0 := by
        rw [List.map_const']
        rw [List.length_range]

/-- The output length of the decimation loop, as a natural division. -/
theorem floor_len_ratio (len rin rout : ℕ) :
    ⌊(len : ℝ) / ((rin : ℝ) / (rout : ℝ))⌋₊ = len * rout / rin := by
  have h1 : (len : ℝ) / ((rin : ℝ) / (rout : ℝ)) = ((len * rout : ℕ) : ℝ) / ((rin : ℕ) : ℝ) := by
    push_cast
    rw [div_div_eq_mul_div]
  rw [h1, Nat.floor_div_nat, Nat.floor_natCast]

/-- Downsampling silence yields silence of the decimated length. -/
theorem downsample_replicate_zero (n rin rout : ℕ) (h : rout < rin) :
    downsampleAudio (List.replicate n 0) rin rout =
      Except.ok (List.replicate (n * rout / rin) 0) := by
  have hne : ¬(rin = rout) := by omega
  have hnlt : ¬(rin < rout) := by omega
  unfold downsampleAudio
  rw [if_neg hne, if_neg hnlt]
  rw [applyLowPassFilter_replicate_zero]
  simp only [List.length_replicate]
  rw [floor_len_ratio]
  congr 1
  have hbody : ∀ i : ℕ,
      (if ⌊(i : ℝ) * ((rin : ℝ) / (rout : ℝ))⌋₊ + 1 < n then
        toInt16 (jsRound
          (((List.replicate n (0 : ℤ)).getD ⌊(i : ℝ) * ((rin : ℝ) / (rout : ℝ))⌋₊ 0 : ℝ) +
            ((i : ℝ) * ((rin : ℝ) / (rout : ℝ)) - (⌊(i : ℝ) * ((rin : ℝ) / (rout : ℝ))⌋₊ : ℝ)) *
              (((List.replicate n (0 : ℤ)).getD (⌊(i : ℝ) * ((rin : ℝ) / (rout : ℝ))⌋₊ + 1) 0 : ℝ) -
                ((List.replicate n (0 : ℤ)).getD ⌊(i : ℝ) * ((rin : ℝ) / (rout : ℝ))⌋₊ 0 : ℝ))))
      else (List.replicate n (0 : ℤ)).getD ⌊(i : ℝ) * ((rin : ℝ) / (rout : ℝ))⌋₊ 0) = (0 : ℤ) := by
    intro i
    rw [getD_replicate_zero, getD_replicate_zero]
    split
    · have hz : ((0 : ℤ) : ℝ) +
          ((i : ℝ) * ((rin : ℝ) / (rout : ℝ)) - (⌊(i : ℝ) * ((rin : ℝ) / (rout : ℝ))⌋₊ : ℝ)) *
            (((0 : ℤ) : ℝ) - ((0 : ℤ) : ℝ)) = 0 := by
        push_cast
        ring
      rw [hz, jsRound_zero, toInt16_zero]
    · rfl
  calc (List.range (n * rout / rin)).map _
      = (List.range (n * rout / rin)).map (fun _ => (0 : ℤ)) :=
        List.map_congr_left fun i _ => hbody i
    _ = List.replicate (n * rout / rin) 0 := by
        rw [List.map_const']
        rw [List.length_range]

/-- C9: downsampling 4800 samples of silence from 24000 Hz to 16000 Hz
yields exactly 3200 samples, every one of which is zero. -/
theorem downsample_silence_scenario :
    downsampleAudio (List.replicate 4800 0) 24000 16000 =
      Except.ok (List.replicate 3200 0) := by
  rw [downsample_replicate_zero 4800 24000 16000 (by norm_num)]

/-- C10: the downsampling contract — for rateIn > rateOut the output
length is floor(len(input) / (rateIn/rateOut)), written as the natural
division len * rateOut / rateIn; equal rates return the input unchanged;
rateIn < rateOut fails with unsupportedDirection. -/
theorem downsampleAudio_contract (x : List ℤ) (rin rout : ℕ) :
    (rout < rin → ∃ y, downsampleAudio x rin rout = Except.ok y ∧
      y.length = x.length * rout / rin) ∧
    (rin = rout → downsampleAudio x rin rout = Except.ok x) ∧
    (rin < rout → downsampleAudio x rin rout = Except.error ResampleError.unsupportedDirection) := by
  refine ⟨?_, ?_, ?_⟩
  · intro h
    have hne : ¬(rin = rout) := by omega
    have hnlt : ¬(rin < rout) := by omega
    unfold downsampleAudio
    rw [if_neg hne, if_neg hnlt]
    refine ⟨_, rfl, ?_⟩
    simp only [List.length_map, List.length_range]
    exact floor_len_ratio x.length rin rout
  · intro h
    unfold downsampleAudio
    rw [if_pos h]
  · intro h
    have hne : ¬(rin = rout) := by omega
    unfold downsampleAudio
    rw [if_neg hne, if_pos h]

/-- Witness for downsampleAudio_contract: a three-sample input at
24000 to 16000 Hz succeeds with two output samples, equal rates return
the input, and upsampling fails. -/
theorem downsampleAudio_contract_w :
    (∃ y, downsampleAudio [1, 2, 3] 24000 16000 = Except.ok y ∧ y.length = 2) ∧
    downsampleAudio [5] 8000 8000 = Except.ok [5] ∧
    downsampleAudio [5] 8000 16000 = Except.error ResampleError.unsupportedDirection := by
  refine ⟨?_, ?_, ?_⟩
  · obtain ⟨y, hy, hl⟩ := (downsampleAudio_contract [1, 2, 3] 24000 16000).1 (by norm_num)
    exact ⟨y, hy, by simpa using hl⟩
  · exact (downsampleAudio_contract [5] 8000 8000).2.1 rfl
  · exact (downsampleAudio_contract [5] 8000 16000).2.2 (by norm_num)

end HoloAgent
